import Mathlib

/-!
Shallow embedding of the garden-posts-manager content engine
(`src/core/utils.ts`, `src/draftItem.ts`, `src/posts/postProvider.ts`)
and proofs about its specification.

JavaScript strings are modelled as `List Char` (the inputs of interest are
ASCII, so `\s`, `.toLowerCase()` and `.` are modelled over ASCII characters).
The regular-expression replacements inside `countWords` are modelled by a
small backtracking matcher covering exactly the constructs those thirteen
regexes use: literals, single-character classes, counted greedy/lazy
repetition of a character class, capture groups, backreferences and
multiline anchors.  Backtracking priority (lazy = shortest first, greedy =
longest first, leftmost match, non-overlapping global replacement, scanning
resumes at the match end) follows the ECMAScript semantics.
-/

namespace GardenPosts

/-- The ECMAScript whitespace class `\s`, restricted to ASCII. -/
def jsWhitespace (c : Char) : Bool :=
  c == ' ' || c == '\t' || c == '\n' || c == '\r' || c == '\x0b' || c == '\x0c'

/-- Model of `String.prototype.trim`: strip whitespace from both ends. -/
def trimChars (s : List Char) : List Char :=
  ((s.dropWhile jsWhitespace).reverse.dropWhile jsWhitespace).reverse

/-- Maximal runs of non-whitespace characters.  This models
`s.split(/\s+/).filter((word) => word.length > 0)`: splitting on whitespace
runs yields exactly the non-whitespace runs plus possibly empty edge tokens,
and the empty tokens are dropped by the length filter. -/
def wordsGo : List Char → List Char → List (List Char)
  | [], acc => if acc.isEmpty then [] else [acc.reverse]
  | c :: cs, acc =>
    if jsWhitespace c then
      (if acc.isEmpty then wordsGo cs [] else acc.reverse :: wordsGo cs [])
    else wordsGo cs (c :: acc)

def wordsOf (s : List Char) : List (List Char) := wordsGo s []

/-- Model of `String.prototype.includes` (substring occurrence). -/
def containsSub (hay needle : List Char) : Bool :=
  (List.range (hay.length + 1)).any (fun i => needle.isPrefixOf (hay.drop i))

/-- Model of `String.prototype.toLowerCase` (ASCII). -/
def jsToLower (s : String) : String := String.mk (s.toList.map Char.toLower)

def strIncludes (hay needle : String) : Bool := containsSub hay.toList needle.toList

/-! ### A tiny regular-expression matcher

One element of an ECMAScript regular expression, specialised to the
constructs used by `countWords`. -/

inductive RE where
  /-- A literal character sequence. -/
  | lit : List Char → RE
  /-- A single character from a class. -/
  | cls : (Char → Bool) → RE
  /-- Counted repetition of a character class: minimum, optional maximum
  (`none` = unbounded), laziness flag (`true` = lazy). -/
  | quant : Nat → Option Nat → Bool → (Char → Bool) → RE
  /-- A numbered capture group. -/
  | group : Nat → List RE → RE
  /-- A backreference to a capture group. -/
  | backref : Nat → RE
  /-- The `^` anchor under the `m` flag: start of input or just after a newline. -/
  | bol : RE
  /-- The `$` anchor under the `m` flag: end of input or just before a newline. -/
  | eol : RE

/-- Capture records `(group index, start, stop)`; later entries are shadowed
by more recent ones at the head. -/
abbrev Caps := List (Nat × Nat × Nat)

def getCap (n : Nat) (caps : Caps) : Option (Nat × Nat) :=
  match caps.find? (fun e => e.1 == n) with
  | some (_, a, b) => some (a, b)
  | none => none

/-- Length of the maximal run of characters satisfying `p`. -/
def countRun (p : Char → Bool) : List Char → Nat
  | [] => 0
  | c :: cs => if p c then countRun p cs + 1 else 0

/-- Backtracking matcher in continuation-passing style.  `matchSeq fuel s
pats pos caps k` tries to match the sequence `pats` in `s` starting at
`pos`; on success of the whole sequence the continuation `k` decides
whether the enclosing alternatives succeed.  Quantifiers over character
classes enumerate candidate lengths shortest-first (lazy) or longest-first
(greedy), which reproduces the ECMAScript backtracking order.  The fuel
only bounds the nesting depth of sequence elements and is never exhausted
for the fixed patterns below. -/
def matchSeq : Nat → List Char → List RE → Nat → Caps →
    (Nat → Caps → Option (Nat × Caps)) → Option (Nat × Caps)
  | 0, _, _, _, _, _ => none
  | _ + 1, _, [], pos, caps, k => k pos caps
  | fuel + 1, s, re :: rest, pos, caps, k =>
    let cont := fun pos' caps' => matchSeq fuel s rest pos' caps' k
    match re with
    | .lit cs =>
      if cs.isPrefixOf (s.drop pos) then cont (pos + cs.length) caps else none
    | .cls p =>
      match s.drop pos with
      | c :: _ => if p c then cont (pos + 1) caps else none
      | [] => none
    | .quant lo hi lz p =>
      let run := countRun p (s.drop pos)
      let m := match hi with | some h => min run h | none => run
      if lo > m then none
      else if lz then
        (List.range (m - lo + 1)).findSome? (fun i => cont (pos + lo + i) caps)
      else
        (List.range (m - lo + 1)).findSome? (fun i => cont (pos + m - i) caps)
    | .group n inner =>
      matchSeq fuel s inner pos caps
        (fun pos' caps' => cont pos' ((n, pos, pos') :: caps'))
    | .backref n =>
      match getCap n caps with
      | some (a, b) =>
        let cs := (s.drop a).take (b - a)
        if cs.isPrefixOf (s.drop pos) then cont (pos + cs.length) caps else none
      | none => cont pos caps
    | .bol =>
      if pos = 0 then cont pos caps
      else
        match s.drop (pos - 1) with
        | c :: _ => if c == '\n' then cont pos caps else none
        | [] => none
    | .eol =>
      match s.drop pos with
      | [] => cont pos caps
      | c :: _ => if c == '\n' then cont pos caps else none

/-- A replacement template part: literal text or `$n`. -/
inductive Repl where
  | str : List Char → Repl
  | cap : Nat → Repl

def applyRepl (s : List Char) (caps : Caps) : List Repl → List Char
  | [] => []
  | .str cs :: rs => cs ++ applyRepl s caps rs
  | .cap n :: rs =>
    (match getCap n caps with
     | some (a, b) => (s.drop a).take (b - a)
     | none => []) ++ applyRepl s caps rs

/-- Global replacement scan: at each position try the regex; on a match emit
the replacement and resume at the match end (an empty match emits the
replacement, copies one character and advances — none of the regexes below
can match empty, but the case is handled as ECMAScript does). -/
def replaceScan (re : List RE) (repl : List Repl) (s : List Char) :
    Nat → Nat → List Char
  | 0, pos => s.drop pos
  | fuel + 1, pos =>
    match s.drop pos with
    | [] => []
    | c :: _ =>
      match matchSeq 1000 s re pos [] (fun p cs => some (p, cs)) with
      | some (stop, caps) =>
        if pos < stop then
          applyRepl s caps repl ++ replaceScan re repl s fuel stop
        else
          applyRepl s caps repl ++ c :: replaceScan re repl s fuel (pos + 1)
      | none => c :: replaceScan re repl s fuel (pos + 1)

/-- Model of `s.replace(regex-with-g-flag, template)`. -/
def jsReplace (re : List RE) (repl : List Repl) (s : List Char) : List Char :=
  replaceScan re repl s (s.length + 1) 0

/-! ### The thirteen regexes of `countWords`, in source order -/

def dotNN (c : Char) : Bool := c != '\n'     -- `.` without the `s` flag
def anyCh (_ : Char) : Bool := true          -- `[\s\S]`, or `.` with the `s` flag
def upperCls (c : Char) : Bool := 'A' ≤ c && c ≤ 'Z'       -- `[A-Z]`
def alnumCls (c : Char) : Bool :=                          -- `[A-Za-z0-9]`
  ('A' ≤ c && c ≤ 'Z') || ('a' ≤ c && c ≤ 'z') || ('0' ≤ c && c ≤ '9')
def notGt (c : Char) : Bool := c != '>'                    -- `[^>]`
def notRBrace (c : Char) : Bool := c != '\x7d'             -- right-brace complement
def notRBracket (c : Char) : Bool := c != ']'              -- `[^\]]`
def notRParen (c : Char) : Bool := c != ')'                -- `[^\)]`

-- `/^import\s+.*?from\s+.*?;?$/gm`  (replacement: "")
def reImportLine : List RE :=
  [.bol, .lit ['i','m','p','o','r','t'], .quant 1 none false jsWhitespace,
   .quant 0 none true dotNN, .lit ['f','r','o','m'], .quant 1 none false jsWhitespace,
   .quant 0 none true dotNN, .quant 0 (some 1) false (fun c => c == ';'), .eol]

-- `/^export\s+.*?;?$/gm`  (replacement: "")
def reExportLine : List RE :=
  [.bol, .lit ['e','x','p','o','r','t'], .quant 1 none false jsWhitespace,
   .quant 0 none true dotNN, .quant 0 (some 1) false (fun c => c == ';'), .eol]

-- `/<([A-Z][A-Za-z0-9]*)[^>]*>(.*?)<\/\1>/gs`  (replacement: "$2")
def reComponent : List RE :=
  [.lit ['<'], .group 1 [.cls upperCls, .quant 0 none false alnumCls],
   .quant 0 none false notGt, .lit ['>'],
   .group 2 [.quant 0 none true anyCh],
   .lit ['<','/'], .backref 1, .lit ['>']]

-- `/<([A-Z][A-Za-z0-9]*)[^>]*\/>/g`  (replacement: "")
def reSelfClosing : List RE :=
  [.lit ['<'], .group 1 [.cls upperCls, .quant 0 none false alnumCls],
   .quant 0 none false notGt, .lit ['/','>']]

-- `/<([A-Z][A-Za-z0-9]*)[^>]*><\/\1>/g`  (replacement: "")
def reEmptyComponent : List RE :=
  [.lit ['<'], .group 1 [.cls upperCls, .quant 0 none false alnumCls],
   .quant 0 none false notGt, .lit ['>','<','/'], .backref 1, .lit ['>']]

-- `/\{[^}]*\}/g`  (replacement: "")
def reJsxExpr : List RE :=
  [.lit ['\x7b'], .quant 0 none false notRBrace, .lit ['\x7d']]

-- `/#{1,6}\s+/g` : one to six `#` then whitespace  (replacement: "")
def reHeader : List RE :=
  [.quant 1 (some 6) false (fun c => c == '#'), .quant 1 none false jsWhitespace]

-- `/\*\*(.*?)\*\*/g`  (replacement: "$1")
def reBold : List RE :=
  [.lit ['*','*'], .group 1 [.quant 0 none true dotNN], .lit ['*','*']]

-- `/\*(.*?)\*/g`  (replacement: "$1")
def reItalic : List RE :=
  [.lit ['*'], .group 1 [.quant 0 none true dotNN], .lit ['*']]

-- `/`(.*?)`/g` : inline code  (replacement: "$1")
def reInlineCode : List RE :=
  [.lit ['\x60'], .group 1 [.quant 0 none true dotNN], .lit ['\x60']]

-- `/```[\s\S]*?```/g` : fenced code blocks  (replacement: "")
def reCodeBlock : List RE :=
  [.lit ['\x60','\x60','\x60'], .quant 0 none true anyCh,
   .lit ['\x60','\x60','\x60']]

-- `/\[([^\]]+)\]\([^\)]+\)/g`  (replacement: "$1")
def reLink : List RE :=
  [.lit ['['], .group 1 [.quant 1 none false notRBracket],
   .lit [']','('], .quant 1 none false notRParen, .lit [')']]

-- `/!\[([^\]]*)\]\([^\)]+\)/g`  (replacement: "")
def reImage : List RE :=
  [.lit ['!','['], .group 1 [.quant 0 none false notRBracket],
   .lit [']','('], .quant 1 none false notRParen, .lit [')']]

/-- Model of `countWords` from `src/core/utils.ts`: the thirteen
`.replace` calls in source order, then `trim`, then the whitespace split. -/
def countWords (content : String) : Nat :=
  let cs := content.toList
  if cs.isEmpty || (trimChars cs).isEmpty then 0
  else
    let c1 := jsReplace reImportLine [] cs
    let c2 := jsReplace reExportLine [] c1
    let c3 := jsReplace reComponent [Repl.cap 2] c2
    let c4 := jsReplace reSelfClosing [] c3
    let c5 := jsReplace reEmptyComponent [] c4
    let c6 := jsReplace reJsxExpr [] c5
    let c7 := jsReplace reHeader [] c6
    let c8 := jsReplace reBold [Repl.cap 1] c7
    let c9 := jsReplace reItalic [Repl.cap 1] c8
    let c10 := jsReplace reInlineCode [Repl.cap 1] c9
    let c11 := jsReplace reCodeBlock [] c10
    let c12 := jsReplace reLink [Repl.cap 1] c11
    let c13 := jsReplace reImage [] c12
    let clean := trimChars c13
    if clean.length = 0 then 0
    else (wordsOf clean).length

/-! ### Data model (`src/core/types.ts`) -/

inductive ContentType where
  | note | essay | smidgeon | now | pattern | talk
deriving DecidableEq

/-- The string value of a `ContentType`, as in the TS string-literal union. -/
def ContentType.label : ContentType → String
  | .note => "note"
  | .essay => "essay"
  | .smidgeon => "smidgeon"
  | .now => "now"
  | .pattern => "pattern"
  | .talk => "talk"

inductive Status where
  | draft | published
deriving DecidableEq

inductive DraftStatus where
  | fresh | stale | default
deriving DecidableEq

/-- Timestamps are epoch milliseconds, as returned by `Date.prototype.getTime`. -/
structure Post where
  path : String
  title : String
  slug : Option String
  wordCount : Nat
  lastModified : Int
  created : Int
  type : ContentType
  status : Status
  tags : Option (List String)
  description : Option String
  publishedDate : Option Int
deriving DecidableEq

/-! ### Freshness classification

Two variants exist in the source.  `calculateDraftStatus` is
`src/core/utils.ts` lines 198-209 (`<= 30` / `>= 180`);
`DraftPost.calculateStatus` is `src/draftItem.ts` lines 33-51
(`< 30` / `> 180`).  `new Date()` is passed in as `now`. -/

/-- Whole days elapsed: `Math.floor((now - lastModified) / (1000*60*60*24))`.
`Math.floor` is floor division, hence `Int.fdiv`. -/
def daysSinceModified (now lastModified : Int) : Int :=
  Int.fdiv (now - lastModified) 86400000

/-- Model of `calculateDraftStatus` from `src/core/utils.ts`. -/
def calculateDraftStatus (now lastModified : Int) (wordCount : Nat) : DraftStatus :=
  let daysSince := daysSinceModified now lastModified
  if daysSince ≤ 30 then .fresh
  else if daysSince ≥ 180 ∨ wordCount < 300 then .stale
  else .default

namespace DraftPost

/-- Model of the static `DraftPost.calculateStatus` from `src/draftItem.ts`. -/
def calculateStatus (now lastModified : Int) (wordCount : Nat) : DraftStatus :=
  let daysSinceModified := GardenPosts.daysSinceModified now lastModified
  if daysSinceModified < 30 then .fresh
  else if daysSinceModified > 180 ∨ wordCount < 300 then .stale
  else .default

end DraftPost

/-! ### Frontmatter (the gray-matter header object)

The parsed header is a JavaScript object, modelled as an association list
of keys to loosely-typed values (the YAML scalar/sequence kinds the parser
produces for this format). -/

inductive YVal where
  | bool : Bool → YVal
  | str : String → YVal
  | num : Int → YVal
  | list : List String → YVal
deriving DecidableEq

abbrev Frontmatter := List (String × YVal)

/-- JavaScript truthiness of an (optional) field value: `undefined`, `false`,
the empty string and `0` are falsy; arrays are always truthy. -/
def jsTruthy : Option YVal → Bool
  | none => false
  | some (.bool b) => b
  | some (.str s) => s != ""
  | some (.num n) => n != 0
  | some (.list _) => true

/-- Property read `obj[k]`: the value at the first matching key, if any. -/
def fmLookup (k : String) (fm : Frontmatter) : Option YVal :=
  match fm.find? (fun e => e.1 == k) with
  | some e => some e.2
  | none => none

/-- Property write `obj[k] = v`: replace the first entry with the key in
place (object keys are unique in a parsed header), else append at the end. -/
def fmSet (k : String) (v : YVal) : Frontmatter → Frontmatter
  | [] => [(k, v)]
  | e :: es => if e.1 == k then (e.1, v) :: es else e :: fmSet k v es

/-- Property delete `delete obj[k]`. -/
def fmErase (k : String) (fm : Frontmatter) : Frontmatter :=
  fm.filter (fun e => !(e.1 == k))

/-- JavaScript string coercion of a header value, used on the off-type
paths where the source assigns a non-string value to a string field. -/
def yvalToString : YVal → String
  | .str s => s
  | .bool true => "true"
  | .bool false => "false"
  | .num n => toString n
  | .list _ => ""

/-! ### Parsing a post file (`parsePostFile`, `src/core/utils.ts` lines 46-103)

The file-system collaborators appear as parameters: `fm`/`content` are the
gray-matter split of the file bytes, `stem` is
`path.basename(fileUri.fsPath, ".mdx")`, `mtime`/`ctime` come from
`workspace.fs.stat`, and `parseDate` is the `new Date(value)` conversion
applied to a header date value. -/
def parsePostFile (fm : Frontmatter) (content : String) (stem filePath : String)
    (mtime ctime : Int) (parseDate : YVal → Int) : Post :=
  -- const title = frontmatter.title || frontmatter.name || path.basename(...)
  let titleVal : YVal :=
    if jsTruthy (fmLookup "title" fm) then (fmLookup "title" fm).getD (.str "")
    else if jsTruthy (fmLookup "name" fm) then (fmLookup "name" fm).getD (.str "")
    else .str stem
  -- const type = frontmatter.type || "note";  validTypes.includes(type) ? type : "note"
  let typeVal : YVal :=
    if jsTruthy (fmLookup "type" fm) then (fmLookup "type" fm).getD (.str "")
    else .str "note"
  let contentType : ContentType :=
    match typeVal with
    | .str "note" => .note
    | .str "essay" => .essay
    | .str "smidgeon" => .smidgeon
    | .str "now" => .now
    | .str "pattern" => .pattern
    | .str "talk" => .talk
    | _ => .note
  -- const status = frontmatter.draft === true ? 'draft' : 'published'
  let status : Status :=
    if fmLookup "draft" fm = some (.bool true) then .draft else .published
  -- publishedDate ? new Date(publishedDate) : date ? new Date(date) : undefined
  let publishedDate : Option Int :=
    if jsTruthy (fmLookup "publishedDate" fm) then
      some (parseDate ((fmLookup "publishedDate" fm).getD (.str "")))
    else if jsTruthy (fmLookup "date" fm) then
      some (parseDate ((fmLookup "date" fm).getD (.str "")))
    else none
  -- tags is declared `string[]` in the TS type; a non-list value is outside
  -- that type and not modelled
  let tags : Option (List String) :=
    match fmLookup "tags" fm with
    | some (.list xs) => some xs
    | _ => none
  Post.mk filePath (yvalToString titleVal)
    ((fmLookup "slug" fm).map yvalToString)
    (countWords content) mtime ctime contentType status tags
    ((fmLookup "description" fm).map yvalToString)
    publishedDate

/-- The status derivation of `parsePostFile` line 74, on its own (it is the
recomputation applied to a file after a mutation writes it back). -/
def statusOfFrontmatter (fm : Frontmatter) : Status :=
  if fmLookup "draft" fm = some (.bool true) then .draft else .published

/-! ### Mutation operations (`src/core/utils.ts` lines 214-266)

Both operations read the file, transform the parsed header, stringify and
write back; the body is untouched.  The embedding is that header
transformation; `today` is `new Date().toISOString().split('T')[0]`. -/

/-- Model of `promoteDraft`: delete the draft flag, then add a published
date if neither `publishedDate` nor `date` is (truthily) present. -/
def promoteDraft (fm : Frontmatter) (today : String) : Frontmatter :=
  let fm1 := fmErase "draft" fm
  if !jsTruthy (fmLookup "publishedDate" fm1) && !jsTruthy (fmLookup "date" fm1) then
    fmSet "publishedDate" (.str today) fm1
  else fm1

/-- Model of `unpromoteToDraft`: set `draft: true` in the header. -/
def unpromoteToDraft (fm : Frontmatter) : Frontmatter :=
  fmSet "draft" (.bool true) fm

/-! ### Collection building and ordering (`findAllPosts`, lines 10-41)

Per-file parsing either yields a post or fails (the `try`/`catch` around
`parsePostFile`, and its internal `catch` returning `null`); a failed file
contributes nothing.  The survivors are sorted with the comparator of
lines 31-38; `Array.prototype.sort` is stable (ECMAScript 2019), so the
sort is modelled as a stable insertion sort under the comparator. -/

/-- The comparator of `findAllPosts`: drafts first, then newest first. -/
def comparePosts (a b : Post) : Int :=
  if a.status = .draft ∧ b.status = .published then -1
  else if a.status = .published ∧ b.status = .draft then 1
  else b.lastModified - a.lastModified

/-- The ordering induced by the comparator: `a` may come before `b`. -/
def postLE (a b : Post) : Prop := comparePosts a b ≤ 0

instance : DecidableRel postLE :=
  fun a b => inferInstanceAs (Decidable (comparePosts a b ≤ 0))

/-- The collection kept from a batch of per-file parse results:
failed files are skipped, the rest are kept in discovery order. -/
def scanPosts (results : List (Option Post)) : List Post :=
  results.filterMap id

/-- Model of `findAllPosts`: parse survivors, then the stable sort. -/
def findAllPosts (results : List (Option Post)) : List Post :=
  (scanPosts results).insertionSort postLE

/-! ### Filter engine (`src/posts/postProvider.ts`) -/

/-- The `SearchFilters` shape of `postProvider.ts` (`type` is a plain
string there; the date range is a start/end pair). -/
structure SearchFilters where
  query : Option String
  status : Option Status
  type : Option String
  dateRange : Option (Int × Int)
deriving DecidableEq

/-- The free-text predicate of `applyFilters` (lines 138-146); `query` is
already lowercased by the caller. -/
def matchesQuery (query : String) (p : Post) : Bool :=
  strIncludes (jsToLower p.title) query ||
  strIncludes (jsToLower p.type.label) query ||
  (match p.description with
   | some d => (d != "") && strIncludes (jsToLower d) query
   | none => false) ||
  (match p.tags with
   | some ts => ts.any (fun tag => strIncludes (jsToLower tag) query)
   | none => false)

/-- Model of `PostProvider.applyFilters` (lines 134-168): the four
conditional filter passes in source order.  `if (this.currentFilters.query)`
is a truthiness test, so an empty-string query is inactive. -/
def applyFilters (f : SearchFilters) (allPosts : List Post) : List Post :=
  let filtered := allPosts
  let filtered :=
    match f.query with
    | some q => if q != "" then filtered.filter (matchesQuery (jsToLower q)) else filtered
    | none => filtered
  let filtered :=
    match f.status with
    | some s => filtered.filter (fun p => decide (p.status = s))
    | none => filtered
  let filtered :=
    match f.type with
    | some t => filtered.filter (fun p => p.type.label == t)
    | none => filtered
  let filtered :=
    match f.dateRange with
    | some r => filtered.filter (fun p =>
        let postDate := match p.publishedDate with | some d => d | none => p.lastModified
        decide (r.1 ≤ postDate) && decide (postDate ≤ r.2))
    | none => filtered
  filtered

/-- The conjunction of the active predicates, read off the spec contract:
an inactive predicate imposes no constraint, the rest must all hold. -/
def matchesFilters (f : SearchFilters) (p : Post) : Bool :=
  (match f.query with
   | some q => if q != "" then matchesQuery (jsToLower q) p else true
   | none => true) &&
  (match f.status with
   | some s => decide (p.status = s)
   | none => true) &&
  (match f.type with
   | some t => p.type.label == t
   | none => true) &&
  (match f.dateRange with
   | some r =>
     let postDate := match p.publishedDate with | some d => d | none => p.lastModified
     decide (r.1 ≤ postDate) && decide (postDate ≤ r.2)
   | none => true)

/-- Whether no predicate of `f` is active. -/
def noActiveFilters (f : SearchFilters) : Bool :=
  (match f.query with | some q => q == "" | none => true) &&
  f.status.isNone && f.type.isNone && f.dateRange.isNone

/-- The provider state that `removeFilter` touches: the full collection,
the current filters, and the filtered view derived from them. -/
structure PostProviderState where
  allPosts : List Post
  filteredPosts : List Post
  currentFilters : SearchFilters
deriving DecidableEq

/-- Model of `PostProvider.removeFilter` (lines 200-214): switch on the
lowercased filter kind, clear that one field, then re-run `applyFilters`
over `allPosts`. -/
def removeFilter (filterType : String) (st : PostProviderState) : PostProviderState :=
  let f := st.currentFilters
  let f' :=
    if jsToLower filterType = "search" then
      SearchFilters.mk none f.status f.type f.dateRange
    else if jsToLower filterType = "status" then
      SearchFilters.mk f.query none f.type f.dateRange
    else if jsToLower filterType = "type" then
      SearchFilters.mk f.query f.status none f.dateRange
    else f
  PostProviderState.mk st.allPosts (applyFilters f' st.allPosts) f'

/-! ### Statistics (`calculatePostStatistics`, lines 144-193)

`now` is `new Date()`; `monthStart`/`yearStart` are the timestamps of
`new Date(now.getFullYear(), now.getMonth(), 1)` and
`new Date(now.getFullYear(), 0, 1)`, supplied by the calendar collaborator.
The floating-point average is modelled exactly over the rationals. -/

structure TypeBreakdown where
  note : Nat
  essay : Nat
  smidgeon : Nat
  now : Nat
  pattern : Nat
  talk : Nat
deriving DecidableEq

/-- The `typeBreakdown[post.type]++` update. -/
def incrType (tb : TypeBreakdown) : ContentType → TypeBreakdown
  | .note => TypeBreakdown.mk (tb.note + 1) tb.essay tb.smidgeon tb.now tb.pattern tb.talk
  | .essay => TypeBreakdown.mk tb.note (tb.essay + 1) tb.smidgeon tb.now tb.pattern tb.talk
  | .smidgeon => TypeBreakdown.mk tb.note tb.essay (tb.smidgeon + 1) tb.now tb.pattern tb.talk
  | .now => TypeBreakdown.mk tb.note tb.essay tb.smidgeon (tb.now + 1) tb.pattern tb.talk
  | .pattern => TypeBreakdown.mk tb.note tb.essay tb.smidgeon tb.now (tb.pattern + 1) tb.talk
  | .talk => TypeBreakdown.mk tb.note tb.essay tb.smidgeon tb.now tb.pattern (tb.talk + 1)

structure WordCountDistribution where
  short : Nat
  medium : Nat
  long : Nat
deriving DecidableEq

structure PostStatistics where
  totalPosts : Nat
  totalWords : Nat
  draftCount : Nat
  publishedCount : Nat
  postsThisMonth : Nat
  postsThisYear : Nat
  averagePostsPerMonth : Rat
  typeBreakdown : TypeBreakdown
  wordCountDistribution : WordCountDistribution
deriving DecidableEq

/-- Model of `calculatePostStatistics`. -/
def calculatePostStatistics (posts : List Post) (now monthStart yearStart : Int) :
    PostStatistics :=
  let totalPosts := posts.length
  let totalWords := posts.foldl (fun sum p => sum + p.wordCount) 0
  let draftCount := (posts.filter (fun p => decide (p.status = .draft))).length
  let publishedCount := (posts.filter (fun p => decide (p.status = .published))).length
  let postsThisMonth := (posts.filter (fun p => decide (monthStart ≤ p.lastModified))).length
  let postsThisYear := (posts.filter (fun p => decide (yearStart ≤ p.lastModified))).length
  -- Math.max(1, Math.ceil((now - yearStart) / (1000*60*60*24*30)))
  let monthsActive : Int := max 1 ⌈((now - yearStart : Int) : Rat) / 2592000000⌉
  -- Number((postsThisYear / monthsActive).toFixed(1))
  let averagePostsPerMonth : Rat :=
    ((round (((postsThisYear : Rat) / (monthsActive : Rat)) * 10) : Int) : Rat) / 10
  let typeBreakdown := posts.foldl (fun tb p => incrType tb p.type)
    (TypeBreakdown.mk 0 0 0 0 0 0)
  let wordCountDistribution := WordCountDistribution.mk
    (posts.filter (fun p => decide (p.wordCount < 300))).length
    (posts.filter (fun p => decide (300 ≤ p.wordCount) && decide (p.wordCount ≤ 1000))).length
    (posts.filter (fun p => decide (1000 < p.wordCount))).length
  PostStatistics.mk totalPosts totalWords draftCount publishedCount
    postsThisMonth postsThisYear averagePostsPerMonth typeBreakdown
    wordCountDistribution

/-! ## Helper lemmas about frontmatter updates -/

lemma fmLookup_fmSet_self (k : String) (v : YVal) (fm : Frontmatter) :
    fmLookup k (fmSet k v fm) = some v := by
  induction fm with
  | nil => simp [fmSet, fmLookup, List.find?]
  | cons e es ih =>
    by_cases he : e.1 == k
    · simp [fmSet, he, fmLookup, List.find?]
    · simpa [fmSet, he, fmLookup, List.find?] using ih

lemma fmLookup_fmSet_ne (k' k : String) (v : YVal) (fm : Frontmatter)
    (h : k' ≠ k) : fmLookup k' (fmSet k v fm) = fmLookup k' fm := by
  induction fm with
  | nil =>
    simp only [fmSet, fmLookup, List.find?]
    have : (k == k') = false := by
      simpa using fun hk => h hk.symm
    simp [this]
  | cons e es ih =>
    by_cases he : e.1 == k
    · have hke : e.1 = k := by simpa using he
      have : (e.1 == k') = false := by
        simp only [hke]
        simpa using fun hk => h hk.symm
      simp [fmSet, he, fmLookup, List.find?, this]
    · by_cases he' : e.1 == k'
      · simp [fmSet, he, fmLookup, List.find?, he']
      · simpa [fmSet, he, fmLookup, List.find?, he'] using ih

lemma fmLookup_fmErase_self (k : String) (fm : Frontmatter) :
    fmLookup k (fmErase k fm) = none := by
  induction fm with
  | nil => simp [fmErase, fmLookup, List.find?]
  | cons e es ih =>
    by_cases he : e.1 == k
    · simpa [fmErase, he, fmLookup] using ih
    · simpa [fmErase, he, fmLookup, List.find?] using ih

lemma fmLookup_fmErase_ne (k' k : String) (fm : Frontmatter) (h : k' ≠ k) :
    fmLookup k' (fmErase k fm) = fmLookup k' fm := by
  induction fm with
  | nil => simp [fmErase, fmLookup]
  | cons e es ih =>
    by_cases he : e.1 == k
    · have hke : e.1 = k := by simpa using he
      have : (e.1 == k') = false := by
        simp only [hke]
        simpa using fun hk => h hk.symm
      simpa [fmErase, he, fmLookup, List.find?, this] using ih
    · by_cases he' : e.1 == k'
      · simp [fmErase, he, fmLookup, List.find?, he']
      · simpa [fmErase, he, fmLookup, List.find?, he'] using ih

/-! ## Helper lemmas about the sort order -/

/-- Drafts sort strictly before published posts. -/
def statusRank : Status → Nat
  | .draft => 0
  | .published => 1

lemma statusRank_inj (s t : Status) : statusRank s = statusRank t ↔ s = t := by
  cases s <;> cases t <;> simp [statusRank]

lemma postLE_iff (a b : Post) : postLE a b ↔
    (statusRank a.status < statusRank b.status ∨
      (a.status = b.status ∧ b.lastModified ≤ a.lastModified)) := by
  unfold postLE comparePosts
  cases ha : a.status <;> cases hb : b.status <;>
    simp [ha, hb, statusRank]

instance : IsTotal Post postLE :=
  ⟨fun a b => by
    simp only [postLE_iff, ← statusRank_inj]
    omega⟩

instance : IsTrans Post postLE :=
  ⟨fun a b c hab hbc => by
    simp only [postLE_iff, ← statusRank_inj] at hab hbc ⊢
    omega⟩

/-! ## Helper lemmas about the filter engine -/

lemma applyFilters_eq_filter (f : SearchFilters) (ps : List Post) :
    applyFilters f ps = ps.filter (matchesFilters f) := by
  obtain ⟨q, s, t, d⟩ := f
  unfold applyFilters matchesFilters
  dsimp only
  cases q with
  | none =>
    cases s <;> cases t <;> cases d <;>
      simp only [List.filter_filter, Bool.true_and, Bool.and_true, List.filter_true] <;>
      exact List.filter_congr fun x _ => by
        simp only [Bool.and_comm, Bool.and_left_comm, Bool.and_assoc]
  | some q =>
    by_cases hq : (q != "") = true <;>
      simp only [hq, if_true, if_false, Bool.false_eq_true] <;>
      cases s <;> cases t <;> cases d <;>
      simp only [List.filter_filter, Bool.true_and, Bool.and_true, List.filter_true] <;>
      exact List.filter_congr fun x _ => by
        simp only [Bool.and_comm, Bool.and_left_comm, Bool.and_assoc]

/-! ## Claims -/

/-- C1 (amended).  The strict freshness boundaries hold for
`DraftPost.calculateStatus` (`src/draftItem.ts`): `fresh` exactly when the
elapsed whole days are `< 30`, `stale` exactly when not fresh and the days
are `> 180` or the word count is `< 300`, `default` otherwise.  The second
variant, `calculateDraftStatus` (`src/core/utils.ts`), uses inclusive
boundaries instead: `fresh` exactly when the elapsed days are `≤ 30`,
`stale` exactly when the days are `> 30` and (`≥ 180` or word count
`< 300`), `default` otherwise. -/
theorem freshness_classification (now lastModified : Int) (wordCount : Nat) :
    (DraftPost.calculateStatus now lastModified wordCount = .fresh ↔
      daysSinceModified now lastModified < 30) ∧
    (DraftPost.calculateStatus now lastModified wordCount = .stale ↔
      (30 ≤ daysSinceModified now lastModified ∧
        (180 < daysSinceModified now lastModified ∨ wordCount < 300))) ∧
    (DraftPost.calculateStatus now lastModified wordCount = .default ↔
      (30 ≤ daysSinceModified now lastModified ∧
        daysSinceModified now lastModified ≤ 180 ∧ 300 ≤ wordCount)) ∧
    (calculateDraftStatus now lastModified wordCount = .fresh ↔
      daysSinceModified now lastModified ≤ 30) ∧
    (calculateDraftStatus now lastModified wordCount = .stale ↔
      (30 < daysSinceModified now lastModified ∧
        (180 ≤ daysSinceModified now lastModified ∨ wordCount < 300))) ∧
    (calculateDraftStatus now lastModified wordCount = .default ↔
      (30 < daysSinceModified now lastModified ∧
        daysSinceModified now lastModified < 180 ∧ 300 ≤ wordCount)) := by
  unfold DraftPost.calculateStatus calculateDraftStatus
  dsimp only
  split_ifs <;> simp_all <;> omega

/-- C1 (counterexample).  At exactly 30 elapsed days, `calculateDraftStatus`
(`src/core/utils.ts` lines 198-209) returns `fresh`, so the claimed strict
boundary (`fresh` exactly when elapsed `< 30`) is false for it. -/
theorem freshness_classification_cex :
    daysSinceModified 2592000000 0 = 30 ∧
    calculateDraftStatus 2592000000 0 500 = .fresh ∧
    ¬ daysSinceModified 2592000000 0 < 30 := by decide

/-- C2.  The failing input for the fenced-code-block exclusion: on
`"alpha\n```\nbeta gamma\n```\ndelta"` the word counter returns 6 — the
inline-code pass `/`(.*?)`/g` runs before the code-block pass
`/```[\s\S]*?```/g` and rewrites each ``` ``` ``` fence to a single
backtick, so the block regex never matches and the block's contents
(plus the two leftover backticks) are counted.  Deleting the entire block
gives `"alpha\n\ndelta"`, which counts 2, not 6. -/
theorem countWords_code_block_not_excluded :
    countWords "alpha\n```\nbeta gamma\n```\ndelta" = 6 ∧
    countWords "alpha\n\ndelta" = 2 := by decide

/-- C3.  A parsed document has status `draft` exactly when the header field
`draft` is the boolean `true`; any other value (absent, boolean `false`,
a string such as `"true"`, …) yields `published`. -/
theorem status_iff_draft_flag (fm : Frontmatter) (content : String)
    (stem filePath : String) (mtime ctime : Int) (parseDate : YVal → Int) :
    (parsePostFile fm content stem filePath mtime ctime parseDate).status = .draft ↔
      fmLookup "draft" fm = some (.bool true) := by
  by_cases h : fmLookup "draft" fm = some (.bool true) <;>
    simp [parsePostFile, h]

/-- C9.  A header whose `title` field is the empty string (with no `name`
field) falls back to the filename stem: the fallback in `parsePostFile` is
a JavaScript truthiness test, so an empty title triggers it just like an
absent one. -/
theorem empty_title_falls_back_to_stem (fm : Frontmatter) (content : String)
    (stem filePath : String) (mtime ctime : Int) (parseDate : YVal → Int)
    (ht : fmLookup "title" fm = some (.str ""))
    (hn : fmLookup "name" fm = none) :
    (parsePostFile fm content stem filePath mtime ctime parseDate).title = stem := by
  simp [parsePostFile, ht, hn, jsTruthy, yvalToString]

/-- C9 (witness). -/
theorem empty_title_falls_back_to_stem_witness :
    fmLookup "title" [("title", YVal.str "")] = some (.str "") ∧
    fmLookup "name" [("title", YVal.str "")] = none ∧
    (parsePostFile [("title", YVal.str "")] "" "my-post" "/garden/my-post.mdx"
      0 0 (fun _ => 0)).title = "my-post" :=
  ⟨by decide, by decide,
    empty_title_falls_back_to_stem [("title", YVal.str "")] "" "my-post"
      "/garden/my-post.mdx" 0 0 (fun _ => 0) (by decide) (by decide)⟩

/-- C6.  Promote then demote restores draft status: after
`promoteDraft` the `draft` flag is gone; if neither `publishedDate` nor
`date` was present, `promoteDraft` sets `publishedDate` to today; and
`unpromoteToDraft` sets `draft: true` without touching the published date,
so the date set by promote survives the round trip. -/
theorem promote_demote_round_trip (fm : Frontmatter) (today : String) :
    statusOfFrontmatter (unpromoteToDraft (promoteDraft fm today)) = .draft ∧
    fmLookup "draft" (promoteDraft fm today) = none ∧
    (fmLookup "publishedDate" fm = none → fmLookup "date" fm = none →
      fmLookup "publishedDate" (promoteDraft fm today) = some (.str today)) ∧
    fmLookup "publishedDate" (unpromoteToDraft (promoteDraft fm today)) =
      fmLookup "publishedDate" (promoteDraft fm today) := by
  refine ⟨?_, ?_, ?_, ?_⟩
  · simp [statusOfFrontmatter, unpromoteToDraft, fmLookup_fmSet_self]
  · unfold promoteDraft
    dsimp only
    split
    · rw [fmLookup_fmSet_ne _ _ _ _ (by decide), fmLookup_fmErase_self]
    · exact fmLookup_fmErase_self _ _
  · intro hpd hdate
    unfold promoteDraft
    dsimp only
    have h1 : fmLookup "publishedDate" (fmErase "draft" fm) = none := by
      rw [fmLookup_fmErase_ne _ _ _ (by decide), hpd]
    have h2 : fmLookup "date" (fmErase "draft" fm) = none := by
      rw [fmLookup_fmErase_ne _ _ _ (by decide), hdate]
    rw [if_pos (by simp [h1, h2, jsTruthy])]
    exact fmLookup_fmSet_self _ _ _
  · exact fmLookup_fmSet_ne _ _ _ _ (by decide)

/-- C6 (witness). -/
theorem promote_demote_round_trip_witness :
    statusOfFrontmatter
      (unpromoteToDraft (promoteDraft [("draft", YVal.bool true)] "2026-10-11")) = .draft ∧
    fmLookup "publishedDate" (promoteDraft [("draft", YVal.bool true)] "2026-10-11") =
      some (.str "2026-10-11") :=
  ⟨(promote_demote_round_trip [("draft", YVal.bool true)] "2026-10-11").1,
    (promote_demote_round_trip [("draft", YVal.bool true)] "2026-10-11").2.2.1
      (by decide) (by decide)⟩

/-! ## The three-document scenario of the spec

With `now = 1700000000000`: A is a draft modified 1 day ago (50 words),
B is published, modified 200 days ago (500 words), C is published,
modified 10 days ago (150 words). -/

def postA : Post :=
  Post.mk "/garden/a.mdx" "A" none 50 1699913600000 1699913600000
    .note .draft none none none

def postB : Post :=
  Post.mk "/garden/b.mdx" "B" none 500 1682720000000 1682720000000
    .essay .published none none none

def postC : Post :=
  Post.mk "/garden/c.mdx" "C" none 150 1699136000000 1699136000000
    .note .published none none none

/-- C4.  The rebuilt collection is ordered with every draft before every
published post, descending `lastModified` within a status, it is a
permutation of the parse survivors, ties (same status and exactly equal
timestamps) keep their discovery order (the sort is stable), and the
three-document scenario sorts to `[A, C, B]`. -/
theorem findAllPosts_ordering (results : List (Option Post)) :
    ((findAllPosts results).Pairwise fun a b =>
      (a.status = .published → b.status = .published) ∧
      (a.status = b.status → b.lastModified ≤ a.lastModified)) ∧
    (findAllPosts results).Perm (scanPosts results) ∧
    (∀ (s : Status) (t : Int),
      (findAllPosts results).filter
          (fun p => decide (p.status = s) && decide (p.lastModified = t)) =
        (scanPosts results).filter
          (fun p => decide (p.status = s) && decide (p.lastModified = t))) ∧
    findAllPosts [some postA, some postB, some postC] = [postA, postC, postB] := by
  refine ⟨?_, List.perm_insertionSort postLE _, ?_, by decide⟩
  · refine (List.sorted_insertionSort postLE (scanPosts results)).imp ?_
    intro a b hab
    rw [postLE_iff] at hab
    constructor
    · intro hpub
      rcases hab with h | ⟨h, _⟩
      · rw [hpub] at h
        cases hb : b.status <;> simp [hb, statusRank] at h ⊢
      · rw [← h, hpub]
    · intro hst
      rcases hab with h | ⟨_, h⟩
      · rw [hst] at h
        omega
      · exact h
  · intro s t
    set pred := fun p : Post => decide (p.status = s) && decide (p.lastModified = t) with hpred
    have hpw : ((scanPosts results).filter pred).Pairwise postLE := by
      apply List.pairwise_of_forall_mem_list
      intro a ha b hb
      obtain ⟨-, ha⟩ := List.mem_filter.mp ha
      obtain ⟨-, hb⟩ := List.mem_filter.mp hb
      simp only [hpred, Bool.and_eq_true, decide_eq_true_eq] at ha hb
      rw [postLE_iff]
      exact Or.inr ⟨ha.1.trans hb.1.symm, by omega⟩
    have hsub : ((scanPosts results).filter pred).Sublist (findAllPosts results) :=
      List.sublist_insertionSort hpw (List.filter_sublist _)
    have hsub2 : ((scanPosts results).filter pred).Sublist
        ((findAllPosts results).filter pred) := by
      have := hsub.filter pred
      rwa [List.filter_filter, List.filter_congr (fun x _ => Bool.and_self (pred x))] at this
    have hperm : ((findAllPosts results).filter pred).Perm
        ((scanPosts results).filter pred) :=
      (List.perm_insertionSort postLE (scanPosts results)).filter pred
    exact (hsub2.eq_of_length hperm.length_eq.symm).symm

/-- C5.  `applyFilters` returns exactly the subsequence of the collection
satisfying the conjunction of the active predicates (an inactive predicate
imposes no constraint); hence it is idempotent, and with no active
predicate it returns the collection unchanged in order. -/
theorem applyFilters_conjunction (f : SearchFilters) (ps : List Post) :
    applyFilters f ps = ps.filter (matchesFilters f) ∧
    (applyFilters f ps).Sublist ps ∧
    applyFilters f (applyFilters f ps) = applyFilters f ps ∧
    (noActiveFilters f = true → applyFilters f ps = ps) := by
  refine ⟨applyFilters_eq_filter f ps, ?_, ?_, ?_⟩
  · rw [applyFilters_eq_filter]
    exact List.filter_sublist ps
  · calc applyFilters f (applyFilters f ps)
        = (ps.filter (matchesFilters f)).filter (matchesFilters f) := by
          rw [applyFilters_eq_filter, applyFilters_eq_filter]
      _ = ps.filter (fun a => matchesFilters f a && matchesFilters f a) :=
          List.filter_filter _ _
      _ = ps.filter (matchesFilters f) :=
          List.filter_congr fun x _ => Bool.and_self _
      _ = applyFilters f ps := (applyFilters_eq_filter f ps).symm
  · intro h
    obtain ⟨q, s, t, d⟩ := f
    simp only [noActiveFilters, Bool.and_eq_true, Option.isNone_iff_eq_none] at h
    obtain ⟨⟨⟨hq, hs⟩, ht⟩, hd⟩ := h
    subst hs ht hd
    unfold applyFilters
    dsimp only
    cases q with
    | none => rfl
    | some q =>
      have : (q != "") = false := by
        simp only [bne, Bool.not_eq_true']
        simpa using hq
      simp [this]

/-- C5 (witness). -/
theorem applyFilters_conjunction_witness :
    noActiveFilters (SearchFilters.mk (some "") none none none) = true ∧
    applyFilters (SearchFilters.mk (some "") none none none) [postA] = [postA] :=
  ⟨by decide,
    (applyFilters_conjunction (SearchFilters.mk (some "") none none none) [postA]).2.2.2
      (by decide)⟩

/-- C7 helper: every post is a draft or published, so the two status counts
partition the collection. -/
lemma length_filter_status (l : List Post) :
    (l.filter fun p => decide (p.status = .draft)).length +
      (l.filter fun p => decide (p.status = .published)).length = l.length := by
  induction l with
  | nil => rfl
  | cons p l ih =>
    cases h : p.status <;> simp [List.filter_cons, h] <;> omega

/-- C7 helper: the three word-count buckets partition the collection. -/
lemma length_filter_buckets (l : List Post) :
    (l.filter fun p => decide (p.wordCount < 300)).length +
      ((l.filter fun p => decide (300 ≤ p.wordCount) && decide (p.wordCount ≤ 1000)).length +
        (l.filter fun p => decide (1000 < p.wordCount)).length) = l.length := by
  induction l with
  | nil => rfl
  | cons p l ih =>
    simp only [List.filter_cons]
    by_cases h1 : p.wordCount < 300
    · have h2 : ¬ (300 ≤ p.wordCount) := by omega
      have h3 : ¬ (1000 < p.wordCount) := by omega
      simp [h1, h2, h3]
      omega
    · by_cases h2 : p.wordCount ≤ 1000
      · have h3 : ¬ (1000 < p.wordCount) := by omega
        have h4 : 300 ≤ p.wordCount := by omega
        simp [h1, h2, h3, h4]
        omega
      · have h4 : 1000 < p.wordCount := by omega
        simp [h1, h2, h4]
        omega

/-- C7.  The computed statistics are internally consistent: the draft and
published counts sum to the total, and the three word-count buckets
(short `< 300`, medium `300–1000` inclusive, long `> 1000`) also sum to
the total. -/
theorem statistics_totals (posts : List Post) (now monthStart yearStart : Int) :
    (calculatePostStatistics posts now monthStart yearStart).draftCount +
        (calculatePostStatistics posts now monthStart yearStart).publishedCount =
      (calculatePostStatistics posts now monthStart yearStart).totalPosts ∧
    (calculatePostStatistics posts now monthStart yearStart).wordCountDistribution.short +
        (calculatePostStatistics posts now monthStart yearStart).wordCountDistribution.medium +
        (calculatePostStatistics posts now monthStart yearStart).wordCountDistribution.long =
      (calculatePostStatistics posts now monthStart yearStart).totalPosts := by
  unfold calculatePostStatistics
  dsimp only
  refine ⟨length_filter_status posts, ?_⟩
  rw [Nat.add_assoc]
  exact length_filter_buckets posts

/-- C8.  A file whose parsing fails contributes nothing to the collection
(the scan of a batch with a failure equals the scan without it), while
every successfully parsed file of the batch is still included, both in
the raw scan and in the final sorted collection — one failure never
aborts or empties the whole scan. -/
theorem parse_failure_isolated (xs ys : List (Option Post)) (p : Post) :
    scanPosts (xs ++ none :: ys) = scanPosts (xs ++ ys) ∧
    (some p ∈ xs ++ ys → p ∈ scanPosts (xs ++ ys)) ∧
    (some p ∈ xs ++ none :: ys → p ∈ findAllPosts (xs ++ none :: ys)) := by
  refine ⟨?_, ?_, ?_⟩
  · simp [scanPosts, List.filterMap_append]
  · intro h
    simp only [scanPosts, List.mem_filterMap, id]
    exact ⟨some p, h, rfl⟩
  · intro h
    have hmem : p ∈ scanPosts (xs ++ none :: ys) := by
      simp only [scanPosts, List.mem_filterMap, id]
      exact ⟨some p, h, rfl⟩
    unfold findAllPosts
    exact (List.mem_insertionSort postLE).mpr hmem

/-- C8 (witness). -/
theorem parse_failure_isolated_witness :
    scanPosts [some postA, none] = scanPosts [some postA] ∧
    postA ∈ scanPosts [some postA] ∧
    postA ∈ findAllPosts [some postA, none] := by
  obtain ⟨h1, h2, h3⟩ := parse_failure_isolated [some postA] [] postA
  refine ⟨by simpa using h1, by simpa using h2 (by simp), by simpa using h3 (by simp)⟩

/-- C10.  Removing one filter kind (`search`, `status` or `type`) clears
exactly that predicate, leaves the other predicates — including any date
range — unchanged, and recomputes the filtered view as the remaining
active predicates applied to the full collection. -/
theorem removeFilter_deactivates_only_named (st : PostProviderState) :
    ((removeFilter "search" st).currentFilters =
        SearchFilters.mk none st.currentFilters.status st.currentFilters.type
          st.currentFilters.dateRange ∧
      (removeFilter "search" st).allPosts = st.allPosts ∧
      (removeFilter "search" st).filteredPosts =
        st.allPosts.filter (matchesFilters (removeFilter "search" st).currentFilters)) ∧
    ((removeFilter "status" st).currentFilters =
        SearchFilters.mk st.currentFilters.query none st.currentFilters.type
          st.currentFilters.dateRange ∧
      (removeFilter "status" st).allPosts = st.allPosts ∧
      (removeFilter "status" st).filteredPosts =
        st.allPosts.filter (matchesFilters (removeFilter "status" st).currentFilters)) ∧
    ((removeFilter "type" st).currentFilters =
        SearchFilters.mk st.currentFilters.query st.currentFilters.status none
          st.currentFilters.dateRange ∧
      (removeFilter "type" st).allPosts = st.allPosts ∧
      (removeFilter "type" st).filteredPosts =
        st.allPosts.filter (matchesFilters (removeFilter "type" st).currentFilters)) := by
  have hsearch : jsToLower "search" = "search" := by decide
  have hst1 : jsToLower "status" ≠ "search" := by decide
  have hst2 : jsToLower "status" = "status" := by decide
  have hty1 : jsToLower "type" ≠ "search" := by decide
  have hty2 : jsToLower "type" ≠ "status" := by decide
  have hty3 : jsToLower "type" = "type" := by decide
  refine ⟨⟨?_, ?_, ?_⟩, ⟨?_, ?_, ?_⟩, ⟨?_, ?_, ?_⟩⟩ <;>
    unfold removeFilter <;> dsimp only <;>
    simp only [hsearch, hst1, hst2, hty1, hty2, hty3, if_true, if_false,
      if_pos rfl, if_neg hst1, if_neg hty1, if_neg hty2] <;>
    first
      | rfl
      | exact applyFilters_eq_filter _ _

end GardenPosts
